import Mathlib

/-!
Verification of the Blog-Automation repository's core algorithms:
the topic-uniqueness engine (`app/utils/uniqueness.py`), the content
validators (`app/validators/blog_validators.py`,
`app/services/gemini_service.py`), the retry wrappers
(`app/services/gemini_service.py`, `app/services/hashnode_service.py`),
the topic generation loop (`app/jobs/topic_generator.py`) and the
publication pipeline (`app/jobs/blog_publisher.py`).

Python strings are modelled as Lean `String` / `List Char`; Python text
operations are modelled on their ASCII fragment (the repository only
feeds them English titles and markdown).  Python floats are modelled as
exact rationals `ℚ`.
-/

namespace BlogAutomation

/-! ### Character classes (ASCII fragments of Python's `str` semantics) -/

/-- ASCII fragment of Python's `\s` / `str.split()` whitespace class:
space, tab, newline, carriage return, vertical tab, form feed. -/
def isSpaceChar (c : Char) : Bool :=
  decide (c.toNat = 32 ∨ (9 ≤ c.toNat ∧ c.toNat ≤ 13))

/-- Lowercase ASCII letter `a`-`z`. -/
def isLowerAZ (c : Char) : Bool :=
  decide (97 ≤ c.toNat ∧ c.toNat ≤ 122)

/-- ASCII digit `0`-`9`. -/
def isDigit09 (c : Char) : Bool :=
  decide (48 ≤ c.toNat ∧ c.toNat ≤ 57)

/-- ASCII fragment of Python's `str.lower`: map `A`-`Z` to `a`-`z`,
leave everything else unchanged. -/
def pyLower (c : Char) : Char :=
  if 65 ≤ c.toNat ∧ c.toNat ≤ 90 then Char.ofNat (c.toNat + 32) else c

/-- The character class kept by `normalize_text`'s
`re.sub(r'[^a-z0-9\s]', '', text)`: lowercase letters, digits and
whitespace survive, everything else is deleted. -/
def keepChar (c : Char) : Bool :=
  isLowerAZ c || isDigit09 c || isSpaceChar c

/-! ### `normalize_text` (uniqueness.py lines 25-41) -/

/-- Python `str.split()` (no separator argument): split on runs of
whitespace, dropping empty tokens.  `cur` is the reversed current token. -/
def pySplitAux : List Char → List Char → List (List Char)
  | [], cur => if cur.isEmpty then [] else [cur.reverse]
  | c :: rest, cur =>
    if isSpaceChar c then
      if cur.isEmpty then pySplitAux rest []
      else cur.reverse :: pySplitAux rest []
    else pySplitAux rest (c :: cur)

def pySplit (cs : List Char) : List (List Char) :=
  pySplitAux cs []

/-- Python `' '.join(words)`. -/
def joinWords : List (List Char) → List Char
  | [] => []
  | [w] => w
  | w :: ws => w ++ ' ' :: joinWords ws

/-- `normalize_text` from `app/utils/uniqueness.py`: lowercase, delete
every character outside `[a-z0-9\s]`, then `' '.join(text.split())`. -/
def normalizeChars (cs : List Char) : List Char :=
  joinWords (pySplit ((cs.map pyLower).filter keepChar))

def normalize_text (s : String) : String :=
  String.mk (normalizeChars s.data)

/-! ### `extract_keywords` (uniqueness.py lines 44-60) -/

/-- The `STOP_WORDS` set from `app/utils/uniqueness.py`. -/
def STOP_WORDS : List String :=
  ["the", "a", "an", "and", "or", "but", "in", "on", "at", "to", "for",
   "of", "with", "by", "from", "is", "are", "was", "were", "be", "been",
   "being", "have", "has", "had", "do", "does", "did", "will", "would",
   "could", "should", "may", "might", "can", "this", "that", "these",
   "those", "as", "it", "its", "how", "what", "when", "where", "why",
   "who", "which", "into", "through", "during", "before", "after",
   "above", "below", "up", "down", "out", "off", "over", "under",
   "again", "further", "then", "once", "here", "there", "all", "both",
   "each", "few", "more", "most", "other", "some", "such", "no", "nor",
   "not", "only", "own", "same", "so", "than", "too", "very"]

/-- The word list of `extract_keywords` before set conversion:
`normalize_text(text).split()` filtered by
`word not in STOP_WORDS and len(word) > 2`. -/
def keywordList (s : String) : List String :=
  ((pySplit (normalizeChars s.data)).map String.mk).filter
    (fun w => !(STOP_WORDS.contains w) && decide (2 < w.length))

/-- `extract_keywords` from `app/utils/uniqueness.py`: the keyword list
as a set (Python returns a `set`, duplicates collapsed). -/
def extract_keywords (s : String) : Finset String :=
  (keywordList s).toFinset

/-! ### `calculate_jaccard_similarity` (uniqueness.py lines 63-81) -/

/-- `calculate_jaccard_similarity`: `|∩| / |∪|` of the two keyword sets,
with the empty-set edge cases returning `1.0` / `0.0`.  Python's float
division is modelled as exact rational division. -/
def calculate_jaccard_similarity (t1 t2 : String) : ℚ :=
  let k1 := extract_keywords t1
  let k2 := extract_keywords t2
  if k1 = ∅ ∧ k2 = ∅ then 1
  else if k1 = ∅ ∨ k2 = ∅ then 0
  else ((k1 ∩ k2).card : ℚ) / ((k1 ∪ k2).card : ℚ)

/-! ### `calculate_sequence_similarity` (uniqueness.py lines 84-93)

`difflib.SequenceMatcher(None, a, b).ratio()`: twice the total size of
the recursively-found longest matching blocks, divided by the sum of the
lengths.  The autojunk heuristic (which only engages when the second
string is at least 200 characters long) is omitted; the engine only
compares topic titles. -/

/-- Length of the common prefix of two character lists. -/
def commonRunLen : List Char → List Char → Nat
  | a :: as, b :: bs => if a = b then commonRunLen as bs + 1 else 0
  | _, _ => 0

/-- Size of the match of `a[i:]` against `b[j:]` clipped to the windows
`[i, ahi)` and `[j, bhi)`. -/
def matchLenAt (a b : List Char) (i j ahi bhi : Nat) : Nat :=
  min (commonRunLen (a.drop i) (b.drop j)) (min (ahi - i) (bhi - j))

/-- `SequenceMatcher.find_longest_match` on the windows
`a[alo:ahi]`, `b[blo:bhi]`: the longest matching block, ties broken by
the earliest start in `a`, then the earliest start in `b`. -/
def bestMatch (a b : List Char) (alo ahi blo bhi : Nat) : Nat × Nat × Nat :=
  ((List.range (ahi - alo)).map (· + alo)).foldl (fun best i =>
    ((List.range (bhi - blo)).map (· + blo)).foldl (fun best j =>
      let k := matchLenAt a b i j ahi bhi
      if best.2.2 < k then (i, j, k) else best) best) (alo, blo, 0)

/-- Total size of all matching blocks (`get_matching_blocks` recursion):
find the longest match, then recurse on the windows to its left and to
its right.  `fuel` bounds the recursion depth. -/
def matchTotalAux (a b : List Char) : Nat → Nat → Nat → Nat → Nat → Nat
  | 0, _, _, _, _ => 0
  | f + 1, alo, ahi, blo, bhi =>
    let m := bestMatch a b alo ahi blo bhi
    if m.2.2 = 0 then 0
    else matchTotalAux a b f alo m.1 blo m.2.1 + m.2.2 +
      matchTotalAux a b f (m.1 + m.2.2) ahi (m.2.1 + m.2.2) bhi

/-- `calculate_sequence_similarity`: the diff-style ratio
`2*M / (len(a)+len(b))` over the two normalized strings (`1.0` when both
are empty, as in `difflib._calculate_ratio`). -/
def calculate_sequence_similarity (t1 t2 : String) : ℚ :=
  let a := normalizeChars t1.data
  let b := normalizeChars t2.data
  if a.length + b.length = 0 then 1
  else (2 * (matchTotalAux a b (a.length + b.length + 1) 0 a.length 0 b.length) : ℚ) /
    ((a.length + b.length : Nat) : ℚ)

/-- `calculate_similarity` with the default `method="combined"` (the only
method the jobs use): `jaccard * 0.6 + sequence * 0.4`.  The float
weights `0.6`/`0.4` are modelled as the exact rationals `3/5`/`2/5`. -/
def calculate_similarity (t1 t2 : String) : ℚ :=
  calculate_jaccard_similarity t1 t2 * 0.6 + calculate_sequence_similarity t1 t2 * 0.4

/-! ### SHA-256 (`hashlib.sha256`), modelled over `Nat` mod `2^32` -/

/-- 2^32, the word modulus of SHA-256. -/
def w32 : Nat := 4294967296

/-- 32-bit right rotation. -/
def rotr32 (n x : Nat) : Nat :=
  ((x >>> n) ||| (x <<< (32 - n))) % w32

/-- The 64 SHA-256 round constants (FIPS 180-4), in decimal. -/
def shaK : List Nat :=
  [1116352408, 1899447441, 3049323471, 3921009573, 961987163, 1508970993,
   2453635748, 2870763221, 3624381080, 310598401, 607225278, 1426881987,
   1925078388, 2162078206, 2614888103, 3248222580, 3835390401, 4022224774,
   264347078, 604807628, 770255983, 1249150122, 1555081692, 1996064986,
   2554220882, 2821834349, 2952996808, 3210313671, 3336571891, 3584528711,
   113926993, 338241895, 666307205, 773529912, 1294757372, 1396182291,
   1695183700, 1986661051, 2177026350, 2456956037, 2730485921, 2820302411,
   3259730800, 3345764771, 3516065817, 3600352804, 4094571909, 275423344,
   430227734, 506948616, 659060556, 883997877, 958139571, 1322822218,
   1537002063, 1747873779, 1955562222, 2024104815, 2227730452, 2361852424,
   2428436474, 2756734187, 3204031479, 3329325298]

/-- The SHA-256 initial hash state (FIPS 180-4), in decimal. -/
def shaH0 : List Nat :=
  [1779033703, 3144134277, 1013904242, 2773480762,
   1359893119, 2600822924, 528734635, 1541459225]

/-- Big-endian byte expansion of `n` into `k` bytes. -/
def toBytesBE : Nat → Nat → List Nat
  | 0, _ => []
  | k + 1, n => toBytesBE k (n / 256) ++ [n % 256]

/-- SHA-256 padding: `0x80`, zeros, then the 64-bit big-endian bit length. -/
def sha256pad (msg : List Nat) : List Nat :=
  msg ++ [128] ++ List.replicate ((64 - ((msg.length + 9) % 64)) % 64) 0 ++
    toBytesBE 8 (msg.length * 8)

/-- Split a byte list into 64-byte blocks. -/
def chunksAux : Nat → List Nat → List (List Nat)
  | 0, _ => []
  | _ + 1, [] => []
  | f + 1, l => l.take 64 :: chunksAux f (l.drop 64)

/-- Group bytes into big-endian 32-bit words. -/
def bytesToWords : List Nat → List Nat
  | b0 :: b1 :: b2 :: b3 :: rest =>
    (((b0 * 256 + b1) * 256 + b2) * 256 + b3) :: bytesToWords rest
  | _ => []

/-- Extend the 16 block words with the SHA-256 message schedule until 64
words are present (`fuel` = 48). -/
def extendAux : Nat → List Nat → List Nat
  | 0, w => w
  | f + 1, w =>
    let t := w.length
    let x15 := w.getD (t - 15) 0
    let x2 := w.getD (t - 2) 0
    let s0 := rotr32 7 x15 ^^^ rotr32 18 x15 ^^^ (x15 >>> 3)
    let s1 := rotr32 17 x2 ^^^ rotr32 19 x2 ^^^ (x2 >>> 10)
    extendAux f (w ++ [(w.getD (t - 16) 0 + s0 + w.getD (t - 7) 0 + s1) % w32])

/-- One SHA-256 compression round on the 8-word state. -/
def round8 (st : List Nat) (k w : Nat) : List Nat :=
  match st with
  | [a, b, c, d, e, f, g, h] =>
    let S1 := rotr32 6 e ^^^ rotr32 11 e ^^^ rotr32 25 e
    let ch := (e &&& f) ^^^ ((e ^^^ (w32 - 1)) &&& g)
    let temp1 := (h + S1 + ch + k + w) % w32
    let S0 := rotr32 2 a ^^^ rotr32 13 a ^^^ rotr32 22 a
    let maj := (a &&& b) ^^^ (a &&& c) ^^^ (b &&& c)
    let temp2 := (S0 + maj) % w32
    [(temp1 + temp2) % w32, a, b, c, (d + temp1) % w32, e, f, g]
  | _ => st

/-- Compress one 64-byte block into the running hash state. -/
def compressBlock (h : List Nat) (block : List Nat) : List Nat :=
  let w := extendAux 48 (bytesToWords block)
  let st := (shaK.zip w).foldl (fun st kw => round8 st kw.1 kw.2) h
  (h.zip st).map (fun p => (p.1 + p.2) % w32)

/-- The eight 32-bit words of the SHA-256 digest of a byte string. -/
def sha256words (msg : List Nat) : List Nat :=
  (chunksAux (msg.length / 64 + 2) (sha256pad msg)).foldl compressBlock shaH0

/-- A lowercase hex digit. -/
def hexDigit (n : Nat) : Char :=
  if n < 10 then Char.ofNat (48 + n) else Char.ofNat (87 + n)

/-- `k`-digit lowercase hex rendering of `n`. -/
def hexAux : Nat → Nat → List Char
  | 0, _ => []
  | k + 1, n => hexAux k (n / 16) ++ [hexDigit (n % 16)]

/-- The 64-character lowercase hex digest, as `hashlib`'s `hexdigest()`. -/
def sha256hex (msg : List Nat) : String :=
  String.mk ((sha256words msg).map (hexAux 8)).flatten

/-- UTF-8 encoding of a string (`str.encode('utf-8')`), as a byte list. -/
def utf8Bytes (s : String) : List Nat :=
  s.toUTF8.toList.map (·.toNat)

/-! ### `generate_topic_hash` (uniqueness.py lines 121-143) -/

/-- `generate_topic_hash`: extract keywords, sort alphabetically, join
with single spaces, return the SHA-256 hex digest of the UTF-8 bytes. -/
def generate_topic_hash (title : String) : String :=
  let keywords := extract_keywords title
  let sortedKeywords := keywords.sort (· ≤ ·)
  sha256hex (utf8Bytes (" ".intercalate sortedKeywords))

/-! ### `is_similar_topic` / `validate_topic_uniqueness`
(uniqueness.py lines 146-214) -/

/-- The loop of `is_similar_topic`: track the maximum combined similarity
(and first title attaining it, with a strict `>` update). -/
def isSimilarAux (t : String) : List String → ℚ → String → ℚ × String
  | [], maxSim, most => (maxSim, most)
  | e :: rest, maxSim, most =>
    let s := calculate_similarity t e
    if maxSim < s then isSimilarAux t rest s e else isSimilarAux t rest maxSim most

/-- `is_similar_topic`: `(is_similar, most_similar_topic, max_similarity)`
with `is_similar = (max_similarity >= threshold)`. -/
def is_similar_topic (t : String) (existing : List String) (threshold : ℚ) :
    Bool × String × ℚ :=
  let m := isSimilarAux t existing 0 ""
  (decide (threshold ≤ m.1), m.2, m.1)

/-- One entry of `validate_topic_uniqueness`'s result list. -/
structure UniqResult where
  topic : String
  isUnique : Bool
  similarTo : Option String
  similarityScore : ℚ
deriving DecidableEq

/-- The per-candidate body of `validate_topic_uniqueness`'s loop:
`is_similar_topic(topic, existing_topics, threshold)` packaged as a
result record.  It depends only on the candidate, the existing corpus
and the threshold. -/
def singleTopicResult (t : String) (existing : List String) (threshold : ℚ) :
    UniqResult :=
  let r := is_similar_topic t existing threshold
  ⟨t, !r.1, if r.1 then some r.2.1 else none, r.2.2⟩

/-- `validate_topic_uniqueness`: one result per candidate, each computed
against `existing` only. -/
def validate_topic_uniqueness (newTopics existing : List String) (threshold : ℚ) :
    List UniqResult :=
  newTopics.map (fun t => singleTopicResult t existing threshold)

/-! ### Meta-description validation
(`app/validators/blog_validators.py` lines 202-210 and
`app/services/gemini_service.py` lines 685-690) -/

/-- Python `str.strip()` (ASCII whitespace fragment). -/
def pyStripChars (cs : List Char) : List Char :=
  ((cs.dropWhile isSpaceChar).reverse.dropWhile isSpaceChar).reverse

/-- The `meta_description` clause of `GeminiService._validate_blog_data`
(run on a present, non-empty field): error below 120 or above 170 raw
characters, otherwise no error. -/
def geminiMetaErrors (meta : String) : List String :=
  if meta.length < 120 then
    [s!"Meta description too short: {meta.length} chars (recommended 155-160)"]
  else if meta.length > 170 then
    [s!"Meta description too long: {meta.length} chars (max 170)"]
  else []

/-- `ValidatedBlogContent.validate_meta_description` from
`app/validators/blog_validators.py`: measures `len(v.strip())` and
rejects below 120 or above 156 characters. -/
def validate_meta_description (v : String) : Except String String :=
  let length := (pyStripChars v.data).length
  if length < 120 then
    .error s!"Meta description too short: {length} chars (minimum 120)"
  else if length > 156 then
    .error s!"Meta description too long: {length} chars (maximum 156 for Hashnode)"
  else .ok (String.mk (pyStripChars v.data))

/-- `true` iff an `Except`-returning validator accepted its input. -/
def exceptAccepts : Except String String → Bool
  | .ok _ => true
  | .error _ => false

/-! ### Word counting

`BlogPublisherJob._store_blog` (blog_publisher.py lines 246-272) counts
`len(re.findall(r'\w+', content))`; `analyze_content_structure`
(blog_validators.py lines 122-138) first strips code blocks, inline
code, link syntax, heading markers and emphasis markers, then splits on
whitespace. -/

/-- ASCII fragment of the regex word class `\w`: letters, digits, `_`. -/
def isWordChar (c : Char) : Bool :=
  decide ((65 ≤ c.toNat ∧ c.toNat ≤ 90) ∨ (97 ≤ c.toNat ∧ c.toNat ≤ 122) ∨
    (48 ≤ c.toNat ∧ c.toNat ≤ 57) ∨ c.toNat = 95)

/-- Number of maximal runs of word characters, i.e.
`len(re.findall(r'\w+', s))`. -/
def countWordRunsAux : List Char → Bool → Nat
  | [], _ => 0
  | c :: rest, inRun =>
    if isWordChar c then (if inRun then 0 else 1) + countWordRunsAux rest true
    else countWordRunsAux rest false

/-- The word count `_store_blog` computes and stores on the Blog record. -/
def store_word_count (s : String) : Nat :=
  countWordRunsAux s.data false

/-- The backtick character, written by code point to keep the sources
free of literal backticks. -/
def btChar : Char := Char.ofNat 96

def isBt (c : Char) : Bool := c == btChar

/-- If the list starts with two backticks, the remainder after them. -/
def twoBtThen : List Char → Option (List Char)
  | c1 :: c2 :: rest => if isBt c1 && isBt c2 then some rest else none
  | _ => none

/-- Scan for the first run of three consecutive backticks; return the
suffix after it. -/
def findTriple : List Char → Option (List Char)
  | [] => none
  | c :: rest =>
    if isBt c then
      match twoBtThen rest with
      | some rest2 => some rest2
      | none => findTriple rest
    else findTriple rest

/-- `re.sub(r'```[\s\S]*?```', '', text)`: delete each fenced code block
(opening fence to the nearest closing fence); an unmatched opening fence
is left in place, the scanner advancing one character as the regex
engine does. -/
def removeCodeBlocksAux : Nat → List Char → List Char
  | 0, cs => cs
  | _ + 1, [] => []
  | fuel + 1, c :: cs =>
    if isBt c then
      match twoBtThen cs with
      | some rest =>
        match findTriple rest with
        | some rest2 => removeCodeBlocksAux fuel rest2
        | none => c :: removeCodeBlocksAux fuel cs
      | none => c :: removeCodeBlocksAux fuel cs
    else c :: removeCodeBlocksAux fuel cs

/-- Scan to the next backtick and return the suffix after it. -/
def afterBt : List Char → Option (List Char)
  | [] => none
  | c :: rest => if isBt c then some rest else afterBt rest

/-- After an opening backtick: match `[^`]+` then a closing backtick,
returning the suffix after the closing backtick. -/
def inlineSpan : List Char → Option (List Char)
  | [] => none
  | c :: rest => if isBt c then none else afterBt rest

/-- `re.sub(r'`[^`]+`', '', text)`: delete inline code spans. -/
def removeInlineAux : Nat → List Char → List Char
  | 0, cs => cs
  | _ + 1, [] => []
  | fuel + 1, c :: cs =>
    if isBt c then
      match inlineSpan cs with
      | some rest => removeInlineAux fuel rest
      | none => c :: removeInlineAux fuel cs
    else c :: removeInlineAux fuel cs

/-- Split at the first occurrence of `stop`: the characters before it and
the suffix after it (`none` when `stop` does not occur). -/
def scanUntilChar (stop : Char) : List Char → Option (List Char × List Char)
  | [] => none
  | c :: rest =>
    if c = stop then some ([], rest)
    else
      match scanUntilChar stop rest with
      | some p => some (c :: p.1, p.2)
      | none => none

/-- After an opening `[`: match `[^\]]+\]\([^)]+\)`, returning the link
text and the suffix after the closing parenthesis. -/
def linkMatch (cs : List Char) : Option (List Char × List Char) :=
  match scanUntilChar ']' cs with
  | some (text, rest1) =>
    if text.isEmpty then none
    else
      match rest1 with
      | '(' :: rest2 =>
        match scanUntilChar ')' rest2 with
        | some (url, rest3) => if url.isEmpty then none else some (text, rest3)
        | none => none
      | _ => none
  | none => none

/-- `re.sub(r'\[([^\]]+)\]\([^)]+\)', r'\1', text)`: replace each
markdown link with its link text. -/
def removeLinksAux : Nat → List Char → List Char
  | 0, cs => cs
  | _ + 1, [] => []
  | fuel + 1, c :: cs =>
    if c = '[' then
      match linkMatch cs with
      | some (text, rest) => text ++ removeLinksAux fuel rest
      | none => c :: removeLinksAux fuel cs
    else c :: removeLinksAux fuel cs

/-- Consume the `\s+` run after the hashes of a heading marker; returns
whether the last consumed whitespace character was a newline (so that the
next position still counts as a line start) and the remainder. -/
def consumeSpacesNl : List Char → Bool → Bool × List Char
  | [], lastNl => (lastNl, [])
  | c :: rest, lastNl =>
    if isSpaceChar c then consumeSpacesNl rest (c = '\n') else (lastNl, c :: rest)

/-- Match `#+\s+` at a line start. -/
def headingMatch (cs : List Char) : Option (Bool × List Char) :=
  match cs.dropWhile (· = '#') with
  | [] => none
  | c :: rest2 =>
    if isSpaceChar c then some (consumeSpacesNl rest2 (c = '\n')) else none

/-- `re.sub(r'^#+\s+', '', text, flags=re.MULTILINE)`: delete heading
markers at line starts. -/
def removeHeadAux : Nat → Bool → List Char → List Char
  | 0, _, cs => cs
  | _ + 1, _, [] => []
  | fuel + 1, lineStart, c :: cs =>
    if lineStart && c == '#' then
      match headingMatch (c :: cs) with
      | some (nl, rest) => removeHeadAux fuel nl rest
      | none => c :: removeHeadAux fuel false cs
    else c :: removeHeadAux fuel (c == '\n') cs

/-- `re.sub(r'\*+([^*]+)\*+', r'\1', text)` (and the `_` variant):
unwrap emphasis markers, keeping the enclosed text. -/
def removeEmphAux (mark : Char) : Nat → List Char → List Char
  | 0, cs => cs
  | _ + 1, [] => []
  | fuel + 1, c :: cs =>
    if c == mark then
      let run := (c :: cs).takeWhile (· == mark)
      let afterRun := (c :: cs).dropWhile (· == mark)
      match scanUntilChar mark afterRun with
      | some (mid, rest1) =>
        if mid.isEmpty then run ++ removeEmphAux mark fuel afterRun
        else mid ++ removeEmphAux mark fuel (rest1.dropWhile (· == mark))
      | none => run ++ removeEmphAux mark fuel afterRun
    else c :: removeEmphAux mark fuel cs

/-- The word-count text pipeline of `analyze_content_structure`: strip
code blocks, inline code, links (keeping link text), heading markers,
`*` emphasis, `_` emphasis — in source order. -/
def wordCountChars (cs : List Char) : List Char :=
  let t1 := removeCodeBlocksAux (cs.length + 1) cs
  let t2 := removeInlineAux (t1.length + 1) t1
  let t3 := removeLinksAux (t2.length + 1) t2
  let t4 := removeHeadAux (t3.length + 1) true t3
  let t5 := removeEmphAux '*' (t4.length + 1) t4
  removeEmphAux '_' (t5.length + 1) t5

/-- The `word_count` computed by `analyze_content_structure`: zero for
blank content (the early return), otherwise the number of non-empty
whitespace-separated tokens of the stripped text. -/
def analyze_word_count (s : String) : Nat :=
  if (pyStripChars s.data).isEmpty then 0
  else ((pySplit (wordCountChars s.data)).filter (fun w => 0 < w.length)).length

/-! ### Retry wrappers
(`GeminiService._call_with_retry`, gemini_service.py lines 26-67;
`HashnodeService._call_with_retry`, hashnode_service.py lines 25-85)

An external call is modelled as an oracle `outcomes : Nat → Except
ApiError α` giving the result of each (1-indexed) attempt.  A wrapper
run returns the final result together with the sleep delays incurred (in
seconds, in order) and the number of attempts made. -/

/-- An error raised by an external call: its message text, whether it is
a `requests.exceptions.HTTPError`, the HTTP status code of its response
(0 when there is none), and the parsed `Retry-After` header if any. -/
structure ApiError where
  text : String
  isHttpError : Bool
  status : Nat
  retryAfter : Option Nat
deriving DecidableEq

/-- `settings.API_MAX_RETRIES`. -/
def API_MAX_RETRIES : Nat := 3

/-- The progressive retry delays of both wrappers: 1 min, 5 min, 10 min. -/
def retryDelays : List Nat := [60, 300, 600]

/-- `retry_delays[attempt - 1]`, the delay slept after a failed
`attempt`. -/
def retryDelay (attempt : Nat) : Nat :=
  retryDelays.getD (attempt - 1) 0

/-- Does `hay` start with `needle`? -/
def listStarts : List Char → List Char → Bool
  | [], _ => true
  | _ :: _, [] => false
  | a :: as, b :: bs => a == b && listStarts as bs

/-- Python's `needle in hay` substring test. -/
def hasSub : List Char → List Char → Bool
  | [], needle => needle.isEmpty
  | hay@(_ :: rest), needle => listStarts needle hay || hasSub rest needle

/-- The check of the gemini wrapper's no-retry branch:
`"authentication" in str(e).lower() or "api key" in str(e).lower()`. -/
def isAuthError (e : ApiError) : Bool :=
  let m := e.text.data.map pyLower
  hasSub m "authentication".data || hasSub m "api key".data

/-- The result of a retry-wrapper run. -/
structure RetryTrace (α : Type) where
  result : Except ApiError α
  delays : List Nat
  attemptsMade : Nat

/-- The loop of `GeminiService._call_with_retry`; `remaining` is the
number of attempts left after the current one.  On an error the wrapper
re-raises immediately for authentication-text errors, otherwise sleeps
`retry_delays[attempt-1]` and retries; the last attempt's error is
re-raised. -/
def geminiRetryAux (outcomes : Nat → Except ApiError α) :
    Nat → Nat → List Nat → RetryTrace α
  | 0, attempt, delays =>
    ⟨outcomes attempt, delays, attempt⟩
  | remaining + 1, attempt, delays =>
    match outcomes attempt with
    | .ok v => ⟨.ok v, delays, attempt⟩
    | .error e =>
      if isAuthError e then ⟨.error e, delays, attempt⟩
      else geminiRetryAux outcomes remaining (attempt + 1)
        (delays ++ [retryDelay attempt])

/-- `GeminiService._call_with_retry` with `max_retries = 3`. -/
def geminiCallWithRetry (outcomes : Nat → Except ApiError α) : RetryTrace α :=
  geminiRetryAux outcomes (API_MAX_RETRIES - 1) 1 []

/-- The loop of `HashnodeService._call_with_retry`: HTTP 401 errors are
re-raised immediately; HTTP 429 errors sleep the `Retry-After` hint
(default 60 s) and retry; every other error — HTTP or not — sleeps
`retry_delays[attempt-1]` and retries; the last attempt's error is
re-raised. -/
def hashnodeRetryAux (outcomes : Nat → Except ApiError α) :
    Nat → Nat → List Nat → RetryTrace α
  | 0, attempt, delays =>
    ⟨outcomes attempt, delays, attempt⟩
  | remaining + 1, attempt, delays =>
    match outcomes attempt with
    | .ok v => ⟨.ok v, delays, attempt⟩
    | .error e =>
      if e.isHttpError && e.status == 401 then ⟨.error e, delays, attempt⟩
      else if e.isHttpError && e.status == 429 then
        hashnodeRetryAux outcomes remaining (attempt + 1)
          (delays ++ [e.retryAfter.getD 60])
      else hashnodeRetryAux outcomes remaining (attempt + 1)
        (delays ++ [retryDelay attempt])

/-- `HashnodeService._call_with_retry` with `max_retries = 3`. -/
def hashnodeCallWithRetry (outcomes : Nat → Except ApiError α) : RetryTrace α :=
  hashnodeRetryAux outcomes (API_MAX_RETRIES - 1) 1 []

/-! ### Publication pipeline state
(`app/jobs/blog_publisher.py`, `app/models/models.py`) -/

inductive TopicState
  | pending
  | inProgress
  | completed
  | failed
deriving DecidableEq

inductive BlogState
  | draft
  | published
  | failed
deriving DecidableEq

inductive JobKind
  | topicGeneration
  | blogWriting
  | blogPublishing
deriving DecidableEq

inductive JobState
  | started
  | completed
  | failed
deriving DecidableEq

/-- A `Log` document (`Log.create`): job type and run status. -/
structure LogRec where
  jobType : JobKind
  status : JobState
deriving DecidableEq

/-- The blog data dictionary returned by
`GeminiService.generate_blog_content` (including the API-computed
`word_count` added at gemini_service.py line 270). -/
structure BlogData where
  title : String
  seoTitle : String
  content : String
  metaDescription : String
  tags : List String
  wordCount : Nat
deriving DecidableEq

/-- A `Blog` document. -/
structure BlogRec where
  topicId : String
  title : String
  content : String
  metaDescription : String
  tags : List String
  wordCount : Nat
  status : BlogState
  hashnodePostId : Option String
  hashnodeUrl : Option String
  coverImageUrl : Option String
  publishedAt : Option Nat
  updatedAt : Nat
deriving DecidableEq

/-- A `Topic` document (the fields the publishing job touches). -/
structure TopicRec where
  title : String
  status : TopicState
  updatedAt : Nat
deriving DecidableEq

/-- The publishing platform's success payload
(`hashnode_service.publish_post` result). -/
structure PubResult where
  postId : String
  url : String
deriving DecidableEq

/-- The storage state a publishing run manipulates: the run's Topic and
Blog documents and the append-only log collection. -/
structure DBState where
  blog : BlogRec
  topic : TopicRec
  logs : List LogRec
deriving DecidableEq

/-- `BlogPublisherJob._store_blog`: recompute the word count from the
content with `len(re.findall(r'\w+', content))` and insert the Blog as a
Draft.  The API-provided `blog_data["word_count"]` is not used. -/
def store_blog (topicId : String) (bd : BlogData) (now : Nat) : BlogRec :=
  { topicId := topicId
    title := bd.title
    content := bd.content
    metaDescription := bd.metaDescription
    tags := bd.tags
    wordCount := store_word_count bd.content
    status := .draft
    hashnodePostId := none
    hashnodeUrl := none
    coverImageUrl := none
    publishedAt := none
    updatedAt := now }

/-- `BlogPublisherJob._publish_and_update`: on success mark the Blog
Published (storing the remote id, url and publish time) and the Topic
Completed; on failure set the Blog's status back to Draft (touching no
other Blog field), mark the Topic Failed, and re-raise. -/
def publishAndUpdate (outcome : Except ApiError PubResult) (now : Nat)
    (db : DBState) : DBState × Except ApiError Unit :=
  match outcome with
  | .ok r =>
    ({ db with
        blog := { db.blog with
          status := .published
          hashnodePostId := some r.postId
          hashnodeUrl := some r.url
          publishedAt := some now
          updatedAt := now }
        topic := { db.topic with status := .completed, updatedAt := now } },
      .ok ())
  | .error e =>
    ({ db with
        blog := { db.blog with status := .draft, updatedAt := now }
        topic := { db.topic with status := .failed, updatedAt := now } },
      .error e)

/-- The tail of `BlogPublisherJob.run` once the Blog is stored: the
best-effort image branch (its public URL, if any, is written onto the
Blog), then `_publish_and_update`, then the top-level handler which logs
COMPLETED, or logs FAILED and re-raises. -/
def runAfterStore (imageUrl : Option String) (outcome : Except ApiError PubResult)
    (now : Nat) (db : DBState) : DBState × Except ApiError Unit :=
  let db1 :=
    match imageUrl with
    | some u => { db with blog := { db.blog with coverImageUrl := some u } }
    | none => db
  let step := publishAndUpdate outcome now db1
  match step.2 with
  | .ok _ =>
    ({ step.1 with logs := step.1.logs ++ [⟨.blogPublishing, .completed⟩] }, .ok ())
  | .error e =>
    ({ step.1 with logs := step.1.logs ++ [⟨.blogPublishing, .failed⟩] }, .error e)

/-! ### Topic generation loop
(`TopicGeneratorJob._generate_and_validate_topics`,
topic_generator.py lines 181-250) -/

/-- A topic dictionary returned by `GeminiService.generate_topics`. -/
structure GenTopic where
  title : String
  description : String
  keywords : List String
  angle : String
deriving DecidableEq

/-- `settings.TOPIC_COUNT_PER_WEEK`. -/
def TOPIC_COUNT_PER_WEEK : Nat := 7

/-- One attempt of the generate-and-validate loop: request
`target - accepted` topics from the oracle `gen`, validate their titles
against `existing_topics + accepted titles`, and append the unique
ones. -/
def attemptStep (gen : Nat → Nat → List GenTopic) (existing : List String)
    (threshold : ℚ) (target : Nat) (validated : List GenTopic)
    (attempt : Nat) : List GenTopic :=
  let generated := gen attempt (target - validated.length)
  let results := validate_topic_uniqueness (generated.map (·.title))
    (existing ++ validated.map (·.title)) threshold
  validated ++ ((generated.zip results).filter (fun p => p.2.isUnique)).map (·.1)

/-- The attempt loop (`for attempt in range(1, max_attempts + 1)`), with
`remaining` the number of loop iterations left: after each attempt, if
the accepted list has reached `target` it is truncated to `target` and
the loop exits; otherwise the loop continues, and after the final
attempt whatever was accepted is returned.  The returned `Nat` is the
number of the last attempt made. -/
def genLoop (gen : Nat → Nat → List GenTopic) (existing : List String)
    (threshold : ℚ) (target : Nat) :
    Nat → Nat → List GenTopic → List GenTopic × Nat
  | 0, attempt, validated => (validated, attempt)
  | 1, attempt, validated =>
    let v := attemptStep gen existing threshold target validated attempt
    if target ≤ v.length then (v.take target, attempt) else (v, attempt)
  | remaining + 2, attempt, validated =>
    let v := attemptStep gen existing threshold target validated attempt
    if target ≤ v.length then (v.take target, attempt)
    else genLoop gen existing threshold target (remaining + 1) (attempt + 1) v

/-- `_generate_and_validate_topics` with `max_attempts = 3`, starting
from attempt 1 with no accepted topics. -/
def generate_and_validate_topics (gen : Nat → Nat → List GenTopic)
    (existing : List String) (threshold : ℚ) (target : Nat) :
    List GenTopic × Nat :=
  genLoop gen existing threshold target 3 1 []

/-! ### Concrete inputs used by the witnesses and counterexamples -/

/-- An error whose text contains "authentication" — authentication-class
per the claim — but which is not an HTTP error. -/
def authTextFailure : ApiError := ⟨"GraphQL error: authentication failed", false, 0, none⟩

/-- An external call that fails with `authTextFailure` on every attempt. -/
def alwaysAuthText : Nat → Except ApiError Nat := fun _ => .error authTextFailure

/-- An authentication-text error as the gemini client raises it. -/
def invalidKeyError : ApiError := ⟨"Invalid API key provided", false, 0, none⟩

/-- An HTTP 401 error as `requests.raise_for_status` raises it. -/
def unauthorizedError : ApiError := ⟨"401 Client Error: Unauthorized", true, 401, none⟩

def alwaysInvalidKey : Nat → Except ApiError Nat := fun _ => .error invalidKeyError

def alwaysUnauthorized : Nat → Except ApiError Nat := fun _ => .error unauthorizedError

/-- An HTTP 429 rate-limit error with no Retry-After header. -/
def rateLimited : ApiError := ⟨"429 Client Error: Too Many Requests", true, 429, none⟩

/-- An external call that is rate-limited twice and then succeeds. -/
def twoRateLimitsThenOk : Nat → Except ApiError Nat :=
  fun n => if n ≤ 2 then .error rateLimited else .ok 7

/-- A transient network error. -/
def timeoutError : ApiError := ⟨"Connection timed out", false, 0, none⟩

/-- An external call that times out twice and then succeeds. -/
def twoTimeoutsThenOk : Nat → Except ApiError Nat :=
  fun n => if n ≤ 2 then .error timeoutError else .ok 42

/-- A generation oracle whose every batch comes back empty. -/
def emptyGen : Nat → Nat → List GenTopic := fun _ _ => []

/-- A 200-character fenced code block: two fences around 194 word
characters. -/
def codeFence200 : String := "```" ++ String.mk (List.replicate 194 'x') ++ "```"

/-- Ten words of prose followed by the 200-character code fence. -/
def contentC9 : String :=
  "alpha beta gamma delta epsilon zeta eta theta iota kappa\n" ++ codeFence200

/-- A character `normalize_text` may emit: a lowercase letter, a digit,
or a space separator. -/
def isCanonChar (c : Char) : Bool :=
  isLowerAZ c || isDigit09 c || c == ' '

/-- The first character, if any, is not a space. -/
def headNotSpace : List Char → Bool
  | [] => true
  | c :: _ => !(c == ' ')

/-- The last character, if any, is not a space. -/
def lastNotSpace (l : List Char) : Bool :=
  match l.getLast? with
  | none => true
  | some c => !(c == ' ')

/-- No two adjacent characters are both spaces. -/
def noTwoSpaces : List Char → Bool
  | c1 :: c2 :: rest => !(c1 == ' ' && c2 == ' ') && noTwoSpaces (c2 :: rest)
  | _ => true

/-! ## Theorems -/

/-- C1: in every publishing run whose submission to the platform raises
an error after the Blog was stored, `_publish_and_update` sets the Blog
back to Draft with its content field untouched, marks the Topic Failed,
re-raises the error to the job runner, and the run's handler appends
exactly one Failed log record. -/
theorem publish_failure_rolls_back (img : Option String) (e : ApiError)
    (now : Nat) (db : DBState) :
    (runAfterStore img (.error e) now db).1.blog.status = .draft ∧
    (runAfterStore img (.error e) now db).1.blog.content = db.blog.content ∧
    (runAfterStore img (.error e) now db).1.topic.status = .failed ∧
    (runAfterStore img (.error e) now db).2 = .error e ∧
    (runAfterStore img (.error e) now db).1.logs =
      db.logs ++ [⟨.blogPublishing, .failed⟩] ∧
    ((runAfterStore img (.error e) now db).1.logs.countP
        (fun l => l.status == JobState.failed)) =
      (db.logs.countP (fun l => l.status == JobState.failed)) + 1 := by
  cases img <;>
    simp [runAfterStore, publishAndUpdate, List.countP_append, List.countP_cons]

set_option maxRecDepth 8192 in
/-- C2 counterexample: a 160-character meta description lies inside the
claimed 120-170 acceptance range (and the generation-side validator
indeed accepts it), yet `validate_meta_description` rejects it — its
upper bound is 156, not 170. -/
theorem meta_description_160_rejected :
    120 ≤ (String.mk (List.replicate 160 'a')).length ∧
    (String.mk (List.replicate 160 'a')).length ≤ 170 ∧
    geminiMetaErrors (String.mk (List.replicate 160 'a')) = [] ∧
    exceptAccepts (validate_meta_description (String.mk (List.replicate 160 'a'))) =
      false := by
  decide

/-- C2 amended: the generation-side check
(`GeminiService._validate_blog_data`) accepts a meta description exactly
when its raw length is between 120 and 170 inclusive, while the content
validator (`validate_meta_description`) accepts exactly when the
stripped length is between 120 and 156 inclusive. -/
theorem meta_description_ranges (s : String) :
    (geminiMetaErrors s = [] ↔ 120 ≤ s.length ∧ s.length ≤ 170) ∧
    (exceptAccepts (validate_meta_description s) = true ↔
      120 ≤ (pyStripChars s.data).length ∧ (pyStripChars s.data).length ≤ 156) := by
  constructor
  · by_cases h1 : s.length < 120
    · simp [geminiMetaErrors, h1]
    · by_cases h2 : 170 < s.length
      · simp [geminiMetaErrors, h1, h2]
      · simp only [geminiMetaErrors, if_neg h1, if_neg (by omega : ¬s.length > 170)]
        simp
        omega
  · by_cases h1 : (pyStripChars s.data).length < 120
    · simp [validate_meta_description, exceptAccepts, h1]
    · by_cases h2 : 156 < (pyStripChars s.data).length
      · simp [validate_meta_description, exceptAccepts, h1, h2]
      · simp only [validate_meta_description, if_neg h1,
          if_neg (by omega : ¬(pyStripChars s.data).length > 156), exceptAccepts]
        simp
        omega

set_option maxRecDepth 8192 in
/-- C2 amended, witness: a 150-character meta description is accepted by
both validators. -/
theorem meta_description_ranges_witness :
    geminiMetaErrors (String.mk (List.replicate 150 'b')) = [] ∧
    exceptAccepts (validate_meta_description (String.mk (List.replicate 150 'b'))) =
      true :=
  ⟨(meta_description_ranges (String.mk (List.replicate 150 'b'))).1.mpr (by decide),
   (meta_description_ranges (String.mk (List.replicate 150 'b'))).2.mpr (by decide)⟩

/-- C5: the batch uniqueness check evaluates each candidate against the
existing corpus only — the result list is the per-candidate results of
`singleTopicResult t existing threshold` in order, so the entry for a
candidate is the same whatever other candidates share its batch, and a
later candidate is never compared against an earlier one. -/
theorem validate_batch_independent (pre suf existing : List String) (t : String)
    (threshold : ℚ) :
    validate_topic_uniqueness (pre ++ t :: suf) existing threshold =
      validate_topic_uniqueness pre existing threshold ++
        singleTopicResult t existing threshold ::
          validate_topic_uniqueness suf existing threshold ∧
    (validate_topic_uniqueness (pre ++ t :: suf) existing threshold)[pre.length]? =
      some (singleTopicResult t existing threshold) := by
  constructor
  · simp [validate_topic_uniqueness]
  · simp only [validate_topic_uniqueness, List.map_append, List.map_cons]
    rw [List.getElem?_append_right (by simp)]
    simp

/-- C8: `generate_topic_hash` hashes the alphabetically sorted,
space-joined keyword set with SHA-256, so any two titles with the same
extracted keyword set — in particular word-order permutations and case
variants — receive the same hex digest. -/
theorem fingerprint_keywords_invariant (a b : String)
    (h : extract_keywords a = extract_keywords b) :
    generate_topic_hash a = generate_topic_hash b := by
  unfold generate_topic_hash
  rw [h]

/-- C8 witness: `"Cloud Security Basics"` and `"basics SECURITY cloud"`
have equal keyword sets, hence equal fingerprints. -/
theorem fingerprint_keywords_invariant_witness :
    extract_keywords "Cloud Security Basics" = extract_keywords "basics SECURITY cloud" ∧
    generate_topic_hash "Cloud Security Basics" = generate_topic_hash "basics SECURITY cloud" :=
  ⟨by decide,
   fingerprint_keywords_invariant "Cloud Security Basics" "basics SECURITY cloud" (by decide)⟩

/-! Step equations for the retry wrappers (definitional). -/

theorem geminiRetryAux_step (out : Nat → Except ApiError α) (r attempt : Nat)
    (ds : List Nat) :
    geminiRetryAux out (r + 1) attempt ds =
      (match out attempt with
       | .ok v => ⟨.ok v, ds, attempt⟩
       | .error e =>
         if isAuthError e then ⟨.error e, ds, attempt⟩
         else geminiRetryAux out r (attempt + 1) (ds ++ [retryDelay attempt])) := rfl

theorem geminiRetryAux_last (out : Nat → Except ApiError α) (attempt : Nat)
    (ds : List Nat) :
    geminiRetryAux out 0 attempt ds = ⟨out attempt, ds, attempt⟩ := rfl

theorem hashnodeRetryAux_step (out : Nat → Except ApiError α) (r attempt : Nat)
    (ds : List Nat) :
    hashnodeRetryAux out (r + 1) attempt ds =
      (match out attempt with
       | .ok v => ⟨.ok v, ds, attempt⟩
       | .error e =>
         if e.isHttpError && e.status == 401 then ⟨.error e, ds, attempt⟩
         else if e.isHttpError && e.status == 429 then
           hashnodeRetryAux out r (attempt + 1) (ds ++ [e.retryAfter.getD 60])
         else hashnodeRetryAux out r (attempt + 1) (ds ++ [retryDelay attempt])) := rfl

theorem hashnodeRetryAux_last (out : Nat → Except ApiError α) (attempt : Nat)
    (ds : List Nat) :
    hashnodeRetryAux out 0 attempt ds = ⟨out attempt, ds, attempt⟩ := rfl

/-- C3 counterexample: an error whose text contains "authentication" —
authentication-class per the claim — is retried by the hashnode wrapper
(which only checks for HTTP 401): the run makes 3 attempts and sleeps
60 s and 300 s instead of propagating immediately with zero delay. -/
theorem auth_text_retried_by_hashnode :
    isAuthError authTextFailure = true ∧
    (hashnodeCallWithRetry alwaysAuthText).delays = [60, 300] ∧
    (hashnodeCallWithRetry alwaysAuthText).attemptsMade = 3 ∧
    (hashnodeCallWithRetry alwaysAuthText).result = .error authTextFailure :=
  ⟨by decide, rfl, rfl, rfl⟩

/-- C3 amended: each wrapper short-circuits exactly its own
authentication check.  The gemini wrapper never retries an error whose
lowercased text contains "authentication" or "api key"; the hashnode
wrapper never retries an HTTP 401 error: in both cases the first
attempt's error propagates with zero delays incurred. -/
theorem auth_errors_not_retried {α : Type} (out : Nat → Except ApiError α)
    (e : ApiError) (h1 : out 1 = .error e) :
    (isAuthError e = true → geminiCallWithRetry out = ⟨.error e, [], 1⟩) ∧
    (e.isHttpError = true → e.status = 401 →
      hashnodeCallWithRetry out = ⟨.error e, [], 1⟩) := by
  constructor
  · intro ha
    have e0 : geminiCallWithRetry out = geminiRetryAux out (1 + 1) 1 [] := rfl
    rw [e0, geminiRetryAux_step, h1]
    simp [ha]
  · intro hh hs
    have e0 : hashnodeCallWithRetry out = hashnodeRetryAux out (1 + 1) 1 [] := rfl
    rw [e0, hashnodeRetryAux_step, h1]
    simp [hh, hs]

/-- C3 amended, witness: a bad-api-key error fails the gemini wrapper on
attempt 1 with no delays, and a 401 fails the hashnode wrapper on
attempt 1 with no delays. -/
theorem auth_errors_not_retried_witness :
    geminiCallWithRetry alwaysInvalidKey = ⟨.error invalidKeyError, [], 1⟩ ∧
    hashnodeCallWithRetry alwaysUnauthorized = ⟨.error unauthorizedError, [], 1⟩ :=
  ⟨(auth_errors_not_retried alwaysInvalidKey invalidKeyError rfl).1 (by decide),
   (auth_errors_not_retried alwaysUnauthorized unauthorizedError rfl).2 rfl rfl⟩

/-- C4 counterexample: two non-authentication failures (HTTP 429 without
a Retry-After header) followed by a success make the hashnode wrapper
sleep 60 s and 60 s — not the claimed 60 s and 300 s — because its 429
branch uses the Retry-After default of 60 s on every attempt. -/
theorem rate_limit_breaks_schedule :
    isAuthError rateLimited = false ∧
    twoRateLimitsThenOk 1 = .error rateLimited ∧
    twoRateLimitsThenOk 2 = .error rateLimited ∧
    twoRateLimitsThenOk 3 = .ok 7 ∧
    (hashnodeCallWithRetry twoRateLimitsThenOk).result = .ok 7 ∧
    (hashnodeCallWithRetry twoRateLimitsThenOk).attemptsMade = 3 ∧
    (hashnodeCallWithRetry twoRateLimitsThenOk).delays = [60, 60] ∧
    ¬((hashnodeCallWithRetry twoRateLimitsThenOk).delays = [60, 300]) :=
  ⟨by decide, rfl, rfl, rfl, rfl, rfl, rfl, by decide⟩

/-- C4 amended: when the first two attempts fail with errors that the
wrapper at hand handles on its standard schedule — any
non-authentication-text error for the gemini wrapper; any error that is
neither an HTTP 401 nor an HTTP 429 for the hashnode wrapper — the run
sleeps exactly 60 s then 300 s, makes exactly 3 attempts, returns the
third attempt's success value, and if the third attempt also fails its
error is propagated to the caller. -/
theorem retry_schedule (out : Nat → Except ApiError α) (e1 e2 : ApiError)
    (h1 : out 1 = .error e1) (h2 : out 2 = .error e2)
    (ha1 : isAuthError e1 = false) (ha2 : isAuthError e2 = false)
    (hs1 : (e1.isHttpError && e1.status == 401) = false)
    (hr1 : (e1.isHttpError && e1.status == 429) = false)
    (hs2 : (e2.isHttpError && e2.status == 401) = false)
    (hr2 : (e2.isHttpError && e2.status == 429) = false) :
    geminiCallWithRetry out = ⟨out 3, [60, 300], 3⟩ ∧
    hashnodeCallWithRetry out = ⟨out 3, [60, 300], 3⟩ := by
  constructor
  · have e0 : geminiCallWithRetry out = geminiRetryAux out (1 + 1) 1 [] := rfl
    rw [e0, geminiRetryAux_step, h1]
    simp only [ha1, Bool.false_eq_true, if_false]
    rw [geminiRetryAux_step, h2]
    simp only [ha2, Bool.false_eq_true, if_false]
    rw [geminiRetryAux_last]
    simp [retryDelay, retryDelays]
  · have e0 : hashnodeCallWithRetry out = hashnodeRetryAux out (1 + 1) 1 [] := rfl
    rw [e0, hashnodeRetryAux_step, h1]
    simp only [hs1, hr1, Bool.false_eq_true, if_false]
    rw [hashnodeRetryAux_step, h2]
    simp only [hs2, hr2, Bool.false_eq_true, if_false]
    rw [hashnodeRetryAux_last]
    simp [retryDelay, retryDelays]

/-- C4 amended, witness: two timeouts then a success yield the success
value after exactly 3 attempts with delays 60 s then 300 s, in both
wrappers. -/
theorem retry_schedule_witness :
    geminiCallWithRetry twoTimeoutsThenOk = ⟨.ok 42, [60, 300], 3⟩ ∧
    hashnodeCallWithRetry twoTimeoutsThenOk = ⟨.ok 42, [60, 300], 3⟩ :=
  retry_schedule twoTimeoutsThenOk timeoutError timeoutError rfl rfl
    (by decide) (by decide) (by decide) (by decide) (by decide) (by decide)

/-! Step equations for the generation loop (definitional). -/

theorem genLoop_one (gen : Nat → Nat → List GenTopic) (existing : List String)
    (threshold : ℚ) (target attempt : Nat) (validated : List GenTopic) :
    genLoop gen existing threshold target 1 attempt validated =
      (let v := attemptStep gen existing threshold target validated attempt
       if target ≤ v.length then (v.take target, attempt) else (v, attempt)) := rfl

theorem genLoop_two (gen : Nat → Nat → List GenTopic) (existing : List String)
    (threshold : ℚ) (target r attempt : Nat) (validated : List GenTopic) :
    genLoop gen existing threshold target (r + 2) attempt validated =
      (let v := attemptStep gen existing threshold target validated attempt
       if target ≤ v.length then (v.take target, attempt)
       else genLoop gen existing threshold target (r + 1) (attempt + 1) v) := rfl

/-- Invariant of the attempt loop: with `r + 1` iterations left and the
current attempt numbered `attempt`, the loop stops between attempts
`attempt` and `attempt + r`, never returns more than `target` topics,
stops before the final attempt only by reaching `target` exactly, and
uses the final attempt whenever it ends up short of `target`. -/
theorem genLoop_spec (gen : Nat → Nat → List GenTopic) (existing : List String)
    (threshold : ℚ) (target : Nat) :
    ∀ (r attempt : Nat) (validated : List GenTopic),
      attempt ≤ (genLoop gen existing threshold target (r + 1) attempt validated).2 ∧
      (genLoop gen existing threshold target (r + 1) attempt validated).2 ≤ attempt + r ∧
      (genLoop gen existing threshold target (r + 1) attempt validated).1.length ≤ target ∧
      ((genLoop gen existing threshold target (r + 1) attempt validated).2 < attempt + r →
        (genLoop gen existing threshold target (r + 1) attempt validated).1.length = target) ∧
      ((genLoop gen existing threshold target (r + 1) attempt validated).1.length < target →
        (genLoop gen existing threshold target (r + 1) attempt validated).2 = attempt + r) := by
  intro r
  induction r with
  | zero =>
    intro attempt validated
    rw [genLoop_one]
    by_cases h : target ≤ (attemptStep gen existing threshold target validated attempt).length
    · simp only [h, if_true]
      have hmin : min target (attemptStep gen existing threshold target validated attempt).length = target :=
        Nat.min_eq_left h
      refine ⟨le_refl _, by omega, ?_, fun _ => ?_, fun hc => ?_⟩
      · simp [List.length_take, hmin]
      · simp [List.length_take, hmin]
      · rw [List.length_take, hmin] at hc
        omega
    · simp only [h, if_false]
      refine ⟨le_refl _, by omega, by omega, by omega, fun _ => rfl⟩
  | succ r ih =>
    intro attempt validated
    have e2 : r + 1 + 1 = r + 2 := rfl
    rw [e2, genLoop_two]
    by_cases h : target ≤ (attemptStep gen existing threshold target validated attempt).length
    · simp only [h, if_true]
      have hmin : min target (attemptStep gen existing threshold target validated attempt).length = target :=
        Nat.min_eq_left h
      refine ⟨le_refl _, by omega, ?_, fun _ => ?_, fun hc => ?_⟩
      · simp [List.length_take, hmin]
      · simp [List.length_take, hmin]
      · rw [List.length_take, hmin] at hc
        omega
    · simp only [h, if_false]
      obtain ⟨ih1, ih2, ih3, ih4, ih5⟩ :=
        ih (attempt + 1) (attemptStep gen existing threshold target validated attempt)
      refine ⟨by omega, by omega, ih3, ?_, ?_⟩
      · intro hlt
        exact ih4 (by omega)
      · intro hlen
        have := ih5 hlen
        omega

/-- C6: every run of `_generate_and_validate_topics` makes between 1 and
3 generation attempts; the returned list never holds more than
`target_count` topics (excess is truncated); the loop stops before the
third attempt only by reaching exactly `target_count` accepted topics;
and whenever fewer than `target_count` are accepted, all 3 attempts were
made and the accepted list is returned rather than an error. -/
theorem topic_loop_bounded (gen : Nat → Nat → List GenTopic)
    (existing : List String) (threshold : ℚ) (target : Nat) :
    1 ≤ (generate_and_validate_topics gen existing threshold target).2 ∧
    (generate_and_validate_topics gen existing threshold target).2 ≤ 3 ∧
    (generate_and_validate_topics gen existing threshold target).1.length ≤ target ∧
    ((generate_and_validate_topics gen existing threshold target).2 < 3 →
      (generate_and_validate_topics gen existing threshold target).1.length = target) ∧
    ((generate_and_validate_topics gen existing threshold target).1.length < target →
      (generate_and_validate_topics gen existing threshold target).2 = 3) := by
  obtain ⟨h1, h2, h3, h4, h5⟩ := genLoop_spec gen existing threshold target 2 1 []
  have e : generate_and_validate_topics gen existing threshold target =
      genLoop gen existing threshold target (2 + 1) 1 [] := rfl
  rw [e]
  exact ⟨h1, by omega, h3, fun h => h4 (by omega), fun h => by have := h5 h; omega⟩

/-- C6 witness: with an oracle returning no valid topics, an empty
corpus and a target of 5, the loop runs all 3 attempts and proceeds
with the (empty) accepted list. -/
theorem topic_loop_bounded_witness :
    (generate_and_validate_topics emptyGen [] 0.7 5).2 = 3 :=
  (topic_loop_bounded emptyGen [] 0.7 5).2.2.2.2 (by decide)

set_option maxRecDepth 100000 in
/-- C9 counterexample: on content that is exactly 10 words of prose plus
a 200-character code fence, the validator's word count
(`analyze_content_structure`) strips the fence and reports 10, but the
word count `_store_blog` stores is `len(re.findall(r'\w+', content))`,
which keeps the fence's tokens and stores 11 — not the claimed 10. -/
theorem store_count_keeps_fence_tokens :
    codeFence200.length = 200 ∧
    analyze_word_count contentC9 = 10 ∧
    store_word_count contentC9 = 11 ∧
    ¬(store_word_count contentC9 = 10) := by
  refine ⟨by decide, by decide, by decide, by decide⟩

set_option maxRecDepth 100000 in
/-- C9 amended: the word count stored on the Blog record is recomputed
from the content as the number of `\w+` runs — the generative API's
`word_count` field is ignored, and the Blog is stored as a Draft — but
this storage-time count does not strip fenced code blocks; only the
validator's recomputed count (`analyze_content_structure`) strips them,
reporting exactly 10 on the 200-character-fence-plus-10-words content. -/
theorem stored_word_count_recomputed (bd : BlogData) (topicId : String) (now : Nat) :
    (store_blog topicId bd now).wordCount = store_word_count bd.content ∧
    (store_blog topicId bd now).status = .draft ∧
    analyze_word_count contentC9 = 10 := by
  refine ⟨rfl, rfl, by decide⟩

/-- C7: `calculate_jaccard_similarity` always lies in `[0, 1]`; it is
`|∩|/|∪|` of the two keyword sets whenever both are non-empty, exactly
`1` when both are empty, and exactly `0` when exactly one is empty. -/
theorem jaccard_spec (a b : String) :
    0 ≤ calculate_jaccard_similarity a b ∧
    calculate_jaccard_similarity a b ≤ 1 ∧
    (extract_keywords a = ∅ → extract_keywords b = ∅ →
      calculate_jaccard_similarity a b = 1) ∧
    (extract_keywords a = ∅ → extract_keywords b ≠ ∅ →
      calculate_jaccard_similarity a b = 0) ∧
    (extract_keywords a ≠ ∅ → extract_keywords b = ∅ →
      calculate_jaccard_similarity a b = 0) ∧
    (extract_keywords a ≠ ∅ → extract_keywords b ≠ ∅ →
      calculate_jaccard_similarity a b =
        ((extract_keywords a ∩ extract_keywords b).card : ℚ) /
          ((extract_keywords a ∪ extract_keywords b).card : ℚ)) := by
  by_cases h1 : extract_keywords a = ∅ <;> by_cases h2 : extract_keywords b = ∅
  · simp [calculate_jaccard_similarity, h1, h2]
  · simp [calculate_jaccard_similarity, h1, h2]
  · simp [calculate_jaccard_similarity, h1, h2]
  · have hne : (extract_keywords a ∪ extract_keywords b).Nonempty :=
      Finset.Nonempty.mono Finset.subset_union_left
        (Finset.nonempty_iff_ne_empty.mpr h1)
    have hpos : (0 : ℚ) < ((extract_keywords a ∪ extract_keywords b).card : ℚ) := by
      exact_mod_cast Finset.card_pos.mpr hne
    have hval : calculate_jaccard_similarity a b =
        ((extract_keywords a ∩ extract_keywords b).card : ℚ) /
          ((extract_keywords a ∪ extract_keywords b).card : ℚ) := by
      simp [calculate_jaccard_similarity, h1, h2]
    refine ⟨?_, ?_, by simp [h1], by simp [h1], by simp [h2], fun _ _ => hval⟩
    · rw [hval]
      exact div_nonneg (by positivity) (le_of_lt hpos)
    · rw [hval, div_le_one hpos]
      exact_mod_cast Finset.card_le_card
        (Finset.Subset.trans Finset.inter_subset_left Finset.subset_union_left)

/-- C7 witness: two empty-keyword inputs give similarity exactly 1. -/
theorem jaccard_spec_witness : calculate_jaccard_similarity "" "" = 1 :=
  (jaccard_spec "" "").2.2.1 (by decide) (by decide)

/-! Lemmas about the word/space structure of `normalize_text`. -/

/-- A word character (lowercase letter or digit) is not the space
character. -/
theorem word_ne_space {c : Char} (h : (isLowerAZ c || isDigit09 c) = true) :
    (c == ' ') = false := by
  cases hc : (c == ' ') with
  | false => rfl
  | true =>
    have : c = ' ' := by simpa using hc
    subst this
    simp [isLowerAZ, isDigit09] at h

/-- A word character is not whitespace. -/
theorem word_not_space {c : Char} (h : (isLowerAZ c || isDigit09 c) = true) :
    isSpaceChar c = false := by
  simp only [isLowerAZ, isDigit09] at h
  simp only [isSpaceChar, decide_eq_false_iff_not]
  rcases Bool.or_eq_true_iff.mp h with h | h <;>
    simp only [decide_eq_true_eq] at h <;> omega

/-- A kept character that is not whitespace is a word character. -/
theorem keep_not_space_word {c : Char} (hk : keepChar c = true)
    (hs : isSpaceChar c = false) : (isLowerAZ c || isDigit09 c) = true := by
  simp only [keepChar, Bool.or_assoc, Bool.or_eq_true_iff] at hk
  rcases hk with h | h | h
  · simp [h]
  · simp [h]
  · rw [h] at hs
    exact absurd hs (by simp)

/-- Every word produced by `pySplitAux` from kept characters is
non-empty and consists of word characters. -/
theorem pySplitAux_words : ∀ (cs cur : List Char),
    (∀ c ∈ cs, keepChar c = true) →
    (∀ c ∈ cur, (isLowerAZ c || isDigit09 c) = true) →
    ∀ w ∈ pySplitAux cs cur,
      w ≠ [] ∧ ∀ c ∈ w, (isLowerAZ c || isDigit09 c) = true := by
  intro cs
  induction cs with
  | nil =>
    intro cur _ hcur w hw
    simp only [pySplitAux] at hw
    by_cases hc : cur.isEmpty
    · simp [hc] at hw
    · rw [if_neg hc] at hw
      rw [List.mem_singleton] at hw
      subst hw
      refine ⟨by simpa [List.isEmpty_iff] using hc, fun c hc2 => hcur c ?_⟩
      exact List.mem_reverse.mp hc2
  | cons c rest ih =>
    intro cur hcs hcur w hw
    simp only [pySplitAux] at hw
    by_cases hsp : isSpaceChar c
    · rw [if_pos hsp] at hw
      by_cases hc : cur.isEmpty
      · rw [if_pos hc] at hw
        exact ih [] (fun d hd => hcs d (by simp [hd])) (by simp) w hw
      · rw [if_neg hc] at hw
        rcases List.mem_cons.mp hw with hw | hw
        · subst hw
          refine ⟨by simpa [List.isEmpty_iff] using hc, fun d hd => hcur d ?_⟩
          exact List.mem_reverse.mp hd
        · exact ih [] (fun d hd => hcs d (by simp [hd])) (by simp) w hw
    · rw [if_neg hsp] at hw
      refine ih (c :: cur) (fun d hd => hcs d (by simp [hd])) ?_ w hw
      intro d hd
      rcases List.mem_cons.mp hd with hd | hd
      · subst hd
        exact keep_not_space_word (hcs d (by simp)) (by simpa using hsp)
      · exact hcur d hd

/-- Appending a word of non-space characters in front preserves
`noTwoSpaces`. -/
theorem noTwoSpaces_append : ∀ (w rest : List Char),
    (∀ c ∈ w, (c == ' ') = false) → noTwoSpaces rest = true →
    noTwoSpaces (w ++ rest) = true := by
  intro w
  induction w with
  | nil => intro rest _ hr; simpa using hr
  | cons c w ih =>
    intro rest hw hr
    have hc : (c == ' ') = false := hw c (by simp)
    have htail : noTwoSpaces (w ++ rest) = true :=
      ih rest (fun d hd => hw d (by simp [hd])) hr
    rw [List.cons_append]
    cases hwr : w ++ rest with
    | nil => simp [noTwoSpaces]
    | cons d l =>
      rw [hwr] at htail
      simp only [noTwoSpaces, Bool.and_eq_true]
      exact ⟨by simp [hc], htail⟩

/-- A space in front of a list whose head is not a space preserves
`noTwoSpaces`. -/
theorem noTwoSpaces_cons_space (rest : List Char)
    (hh : headNotSpace rest = true) (hr : noTwoSpaces rest = true) :
    noTwoSpaces (' ' :: rest) = true := by
  cases rest with
  | nil => simp [noTwoSpaces]
  | cons d l =>
    simp only [headNotSpace] at hh
    simp only [noTwoSpaces, Bool.and_eq_true]
    exact ⟨by simp [hh], hr⟩

/-- A `getLast?` value is a member of the list. -/
theorem getLast?_mem_list {l : List Char} {c : Char} (h : l.getLast? = some c) :
    c ∈ l := by
  obtain ⟨hne, heq⟩ := List.mem_getLast?_eq_getLast (Option.mem_def.mpr h)
  rw [heq]
  exact List.getLast_mem hne

/-- `joinWords` of a non-empty word list is non-empty. -/
theorem joinWords_ne_nil : ∀ (w : List Char) (ws : List (List Char)),
    w ≠ [] → joinWords (w :: ws) ≠ [] := by
  intro w ws hw
  cases ws with
  | nil => simpa [joinWords] using hw
  | cons w2 ws2 =>
    simp only [joinWords]
    intro hcontra
    rcases List.append_eq_nil.mp hcontra with ⟨-, h2⟩
    exact List.cons_ne_nil _ _ h2

/-- `joinWords` of canonical words is canonical: every character is a
lowercase letter, digit or space; it neither starts nor ends with a
space; and no two spaces are adjacent. -/
theorem joinWords_canonical : ∀ (ws : List (List Char)),
    (∀ w ∈ ws, w ≠ [] ∧ ∀ c ∈ w, (isLowerAZ c || isDigit09 c) = true) →
    ((joinWords ws).all isCanonChar = true ∧
     headNotSpace (joinWords ws) = true ∧
     lastNotSpace (joinWords ws) = true ∧
     noTwoSpaces (joinWords ws) = true) := by
  intro ws
  induction ws with
  | nil => intro _; refine ⟨rfl, rfl, rfl, rfl⟩
  | cons w ws ih =>
    intro h
    obtain ⟨hwne, hwq⟩ := h w (by simp)
    have hwns : ∀ c ∈ w, (c == ' ') = false := fun c hc => word_ne_space (hwq c hc)
    have hwcanon : ∀ c ∈ w, isCanonChar c = true := by
      intro c hc
      simp [isCanonChar, hwq c hc]
    cases ws with
    | nil =>
      simp only [joinWords]
      refine ⟨List.all_eq_true.mpr hwcanon, ?_, ?_, ?_⟩
      · cases w with
        | nil => rfl
        | cons c l => simpa [headNotSpace] using hwns c (by simp)
      · cases hlast : w.getLast? with
        | none => simp [lastNotSpace, hlast]
        | some c =>
          simp only [lastNotSpace, hlast]
          simpa using hwns c (getLast?_mem_list hlast)
      · have := noTwoSpaces_append w [] hwns rfl
        simpa using this
    | cons w2 ws2 =>
      obtain ⟨ihall, ihhead, ihlast, ihtwo⟩ :=
        ih (fun v hv => h v (by simp [hv]))
      have hjne : joinWords (w2 :: ws2) ≠ [] :=
        joinWords_ne_nil w2 ws2 (h w2 (by simp)).1
      have e : joinWords (w :: w2 :: ws2) = w ++ ' ' :: joinWords (w2 :: ws2) := rfl
      rw [e]
      refine ⟨?_, ?_, ?_, ?_⟩
      · simp only [List.all_append, List.all_cons, Bool.and_eq_true]
        exact ⟨List.all_eq_true.mpr hwcanon, by decide, ihall⟩
      · cases w with
        | nil => exact absurd rfl hwne
        | cons c l => simpa [headNotSpace] using hwns c (by simp)
      · have e2 : (w ++ ' ' :: joinWords (w2 :: ws2)).getLast? =
            (' ' :: joinWords (w2 :: ws2)).getLast? := by
          apply List.getLast?_append_of_ne_nil
          simp
        have e3 : (' ' :: joinWords (w2 :: ws2)).getLast? =
            (joinWords (w2 :: ws2)).getLast? := by
          cases hj : joinWords (w2 :: ws2) with
          | nil => exact absurd hj hjne
          | cons d l => simp [List.getLast?_cons_cons]
        simp only [lastNotSpace, e2, e3]
        simpa [lastNotSpace] using ihlast
      · refine noTwoSpaces_append w (' ' :: joinWords (w2 :: ws2)) hwns ?_
        exact noTwoSpaces_cons_space _ ihhead ihtwo

/-- `pyLower` fixes canonical characters (none is an uppercase letter). -/
theorem pyLower_fixed {c : Char} (h : isCanonChar c = true) : pyLower c = c := by
  have hn : c.toNat = 32 ∨ (97 ≤ c.toNat ∧ c.toNat ≤ 122) ∨
      (48 ≤ c.toNat ∧ c.toNat ≤ 57) := by
    simp only [isCanonChar, Bool.or_eq_true_iff] at h
    rcases h with (h | h) | h
    · simp only [isLowerAZ, decide_eq_true_eq] at h
      exact Or.inr (Or.inl h)
    · simp only [isDigit09, decide_eq_true_eq] at h
      exact Or.inr (Or.inr h)
    · have : c = ' ' := by simpa using h
      subst this
      exact Or.inl rfl
  unfold pyLower
  rw [if_neg (by omega)]

/-- Canonical characters survive the `[^a-z0-9\s]` filter. -/
theorem canon_keep {c : Char} (h : isCanonChar c = true) : keepChar c = true := by
  simp only [isCanonChar, Bool.or_eq_true_iff] at h
  simp only [keepChar, Bool.or_eq_true_iff]
  rcases h with (h | h) | h
  · exact Or.inl (Or.inl h)
  · exact Or.inl (Or.inr h)
  · refine Or.inr ?_
    have : c = ' ' := by simpa using h
    subst this
    decide

/-- A map that fixes every element of a list is the identity on it. -/
theorem map_fixed {f : Char → Char} : ∀ (l : List Char),
    (∀ c ∈ l, f c = c) → l.map f = l := by
  intro l
  induction l with
  | nil => intro _; rfl
  | cons c t ih =>
    intro h
    simp only [List.map_cons, h c (by simp), List.cons.injEq, true_and]
    exact ih (fun d hd => h d (by simp [hd]))

/-- Splitting a word of non-space characters followed by anything moves
the word into the accumulator. -/
theorem pySplitAux_append_word : ∀ (w tail cur : List Char),
    (∀ c ∈ w, isSpaceChar c = false) →
    pySplitAux (w ++ tail) cur = pySplitAux tail (w.reverse ++ cur) := by
  intro w
  induction w with
  | nil => intro tail cur _; rfl
  | cons c w ih =>
    intro tail cur hw
    have hc : isSpaceChar c = false := hw c (by simp)
    rw [List.cons_append]
    show pySplitAux (c :: (w ++ tail)) cur = _
    simp only [pySplitAux, hc, Bool.false_eq_true, if_false]
    rw [ih tail (c :: cur) (fun d hd => hw d (by simp [hd]))]
    simp

/-- Splitting the join of canonical words recovers exactly the words. -/
theorem split_joinWords : ∀ (ws : List (List Char)),
    (∀ w ∈ ws, w ≠ [] ∧ ∀ c ∈ w, (isLowerAZ c || isDigit09 c) = true) →
    pySplit (joinWords ws) = ws := by
  intro ws
  induction ws with
  | nil => intro _; rfl
  | cons w ws ih =>
    intro h
    obtain ⟨hwne, hwq⟩ := h w (by simp)
    have hwns : ∀ c ∈ w, isSpaceChar c = false := fun c hc => word_not_space (hwq c hc)
    have hrevne : ¬(w.reverse ++ ([] : List Char)).isEmpty = true := by
      simp [List.isEmpty_iff, hwne]
    cases ws with
    | nil =>
      show pySplit (joinWords [w]) = [w]
      have e : joinWords [w] = w ++ [] := by simp [joinWords]
      rw [e]
      unfold pySplit
      rw [pySplitAux_append_word w [] [] hwns]
      simp only [pySplitAux]
      rw [if_neg hrevne]
      simp
    | cons w2 ws2 =>
      have e : joinWords (w :: w2 :: ws2) = w ++ ' ' :: joinWords (w2 :: ws2) := rfl
      unfold pySplit
      rw [e, pySplitAux_append_word w (' ' :: joinWords (w2 :: ws2)) [] hwns]
      simp only [pySplitAux, isSpaceChar]
      rw [if_pos (by decide)]
      rw [if_neg hrevne]
      simp only [List.append_nil, List.reverse_reverse]
      have := ih (fun v hv => h v (by simp [hv]))
      unfold pySplit at this
      rw [this]

set_option maxRecDepth 2048 in
/-- C10: every character `normalize_text` emits is a lowercase ASCII
letter, an ASCII digit or a space; the output has no leading space, no
trailing space and no two adjacent spaces; and consequently
`normalize_text` is idempotent. -/
theorem normalize_canonical (s : String) :
    (normalize_text s).data.all isCanonChar = true ∧
    headNotSpace (normalize_text s).data = true ∧
    lastNotSpace (normalize_text s).data = true ∧
    noTwoSpaces (normalize_text s).data = true ∧
    normalize_text (normalize_text s) = normalize_text s := by
  have hl : ∀ c ∈ (s.data.map pyLower).filter keepChar, keepChar c = true :=
    fun c hc => List.of_mem_filter hc
  have hws : ∀ w ∈ pySplit ((s.data.map pyLower).filter keepChar),
      w ≠ [] ∧ ∀ c ∈ w, (isLowerAZ c || isDigit09 c) = true :=
    pySplitAux_words _ [] hl (by simp)
  obtain ⟨hall, hhead, hlast, htwo⟩ := joinWords_canonical _ hws
  have hdata : (normalize_text s).data =
      joinWords (pySplit ((s.data.map pyLower).filter keepChar)) := rfl
  refine ⟨hdata ▸ hall, hdata ▸ hhead, hdata ▸ hlast, hdata ▸ htwo, ?_⟩
  have hcanon : ∀ c ∈ joinWords (pySplit ((s.data.map pyLower).filter keepChar)),
      isCanonChar c = true := List.all_eq_true.mp hall
  have hmap : (joinWords (pySplit ((s.data.map pyLower).filter keepChar))).map pyLower =
      joinWords (pySplit ((s.data.map pyLower).filter keepChar)) :=
    map_fixed _ (fun c hc => pyLower_fixed (hcanon c hc))
  have hfil : (joinWords (pySplit ((s.data.map pyLower).filter keepChar))).filter keepChar =
      joinWords (pySplit ((s.data.map pyLower).filter keepChar)) :=
    List.filter_eq_self.mpr (fun c hc => canon_keep (hcanon c hc))
  have key : normalizeChars (normalizeChars s.data) = normalizeChars s.data := by
    show joinWords (pySplit (((normalizeChars s.data).map pyLower).filter keepChar)) =
      normalizeChars s.data
    have e : normalizeChars s.data =
        joinWords (pySplit ((s.data.map pyLower).filter keepChar)) := rfl
    rw [e, hmap, hfil, split_joinWords _ hws]
  exact congrArg String.mk key

end BlogAutomation
